import Mathlib

/-!
Shallow embedding of the security.txt parser (package `security`):
the data model (`TXT`), the stream parser (`Parse`), and the URL
resolver (`ParseFromURL`), translated from `parser.go`, `errors.go`
and `txt.go`.  Go strings are Lean `String`s (operated on through
`String.data : List Char`), `time.Time` is modelled by its internal
instant (seconds since Jan 1, year 1, 00:00:00 UTC, plus nanoseconds),
and an `io.Reader` consumed by `bufio.Scanner` is modelled by the list
of line tokens the scanner yields plus the optional read error that
`scanner.Err()` reports afterwards.
-/

namespace GoStrings

/-- Model of Go `unicode.IsSpace` (the White_Space property), which is
what `strings.TrimSpace` trims on. -/
def isSpaceGo (c : Char) : Bool :=
  c = ' ' || c = '\t' || c = '\n' || c.toNat = 11 || c.toNat = 12 || c = '\r' ||
  c.toNat = 0x85 || c.toNat = 0xA0 || c.toNat = 0x1680 ||
  (0x2000 ≤ c.toNat && c.toNat ≤ 0x200A) || c.toNat = 0x2028 || c.toNat = 0x2029 ||
  c.toNat = 0x202F || c.toNat = 0x205F || c.toNat = 0x3000

/-- Drop characters satisfying `p` from both ends of a list. -/
def dropAround (p : Char → Bool) (l : List Char) : List Char :=
  ((l.dropWhile p).reverse.dropWhile p).reverse

/-- Model of Go `strings.TrimSpace`. -/
def TrimSpace (s : String) : String :=
  String.mk (dropAround isSpaceGo s.data)

/-- Model of Go `strings.HasPrefix`. -/
def HasPre (s pre : String) : Bool :=
  pre.data.isPrefixOf s.data

/-- Model of Go `strings.TrimPrefix`. -/
def TrimPre (s pre : String) : String :=
  if HasPre s pre then String.mk (s.data.drop pre.data.length) else s

/-- Model of Go `strings.Trim` with a cutset. -/
def Trim (s cutset : String) : String :=
  String.mk (dropAround (fun c => c ∈ cutset.data) s.data)

/-- Split a character list on every occurrence of `c`
(helper for `strings.Split` with a one-character separator). -/
def splitOnChar (c : Char) : List Char → List (List Char)
  | [] => [[]]
  | a :: as =>
    match splitOnChar c as with
    | [] => if a = c then [[], []] else [[a]]
    | h :: t => if a = c then [] :: h :: t else (a :: h) :: t

/-- Model of Go `strings.Split` restricted to a one-character separator
(the source only splits on `","`). -/
def Split (s : String) (sep : Char) : List String :=
  (splitOnChar sep s.data).map String.mk

/-- Model of Go `strings.HasSuffix`. -/
def HasSuf (s suf : String) : Bool :=
  suf.data.isSuffixOf s.data

/-- Model of Go `strings.TrimSuffix`. -/
def TrimSuf (s suf : String) : String :=
  if HasSuf s suf then String.mk (s.data.take (s.data.length - suf.data.length)) else s

end GoStrings

namespace GoTime

/-- Model of Go `time.Time`: the absolute instant, as seconds since
January 1, year 1, 00:00:00 UTC plus a nanosecond part.  This is
exactly the information `IsZero` and the parser inspect. -/
structure Time where
  sec : Int
  nsec : Nat
deriving DecidableEq

/-- The zero `time.Time` value of Go. -/
def zero : Time := ⟨0, 0⟩

/-- Model of Go `Time.IsZero`: the instant is January 1, year 1, 00:00:00 UTC. -/
def Time.IsZero (t : Time) : Bool :=
  t.sec == 0 && t.nsec == 0

/-- Proleptic-Gregorian leap year, as in Go `time.isLeap`. -/
def isLeap (y : Int) : Bool :=
  y % 4 == 0 && (y % 100 != 0 || y % 400 == 0)

/-- Days in a month (month already validated to 1..12), as in Go `time.daysIn`. -/
def daysIn (m : Nat) (y : Int) : Nat :=
  if m = 2 then (if isLeap y then 29 else 28)
  else if m = 4 ∨ m = 6 ∨ m = 9 ∨ m = 11 then 30
  else 31

/-- Days from January 1 of year 1 to January 1 of year `y`
(floor division so that year 0 is handled as in the proleptic calendar of Go). -/
def daysBeforeYear (y : Int) : Int :=
  365 * (y - 1) + Int.fdiv (y - 1) 4 - Int.fdiv (y - 1) 100 + Int.fdiv (y - 1) 400

/-- Days in year `y` before the first day of month `m` (1..12). -/
def daysBeforeMonth (m : Nat) (leap : Bool) : Nat :=
  let base :=
    match m with
    | 1 => 0 | 2 => 31 | 3 => 59 | 4 => 90 | 5 => 120 | 6 => 151
    | 7 => 181 | 8 => 212 | 9 => 243 | 10 => 273 | 11 => 304 | _ => 334
  if leap ∧ m > 2 then base + 1 else base

/-- The absolute second count of a validated civil date-time in UTC,
as computed by Go `time.Date` on in-range components. -/
def dateToSec (year : Int) (month day hourv minv secv : Nat) : Int :=
  let days : Int := daysBeforeYear year + (daysBeforeMonth month (isLeap year) : Int) + ((day : Int) - 1)
  days * 86400 + ((hourv * 3600 + minv * 60 + secv : Nat) : Int)

/-- Decimal digit value of a character, if it is one. -/
def digit? (c : Char) : Option Nat :=
  if '0' ≤ c ∧ c ≤ '9' then some (c.toNat - '0'.toNat) else none

/-- Two-digit bounded decimal field, as the `parseUint` helper of Go. -/
def parseUint2 (a b : Char) (lo hi : Nat) : Option Nat := do
  let x ← digit? a
  let y ← digit? b
  let v := x * 10 + y
  if lo ≤ v ∧ v ≤ hi then some v else none

/-- Four-digit bounded decimal field, as the `parseUint` helper of Go. -/
def parseUint4 (a b c d : Char) (lo hi : Nat) : Option Nat := do
  let x ← digit? a
  let y ← digit? b
  let z ← digit? c
  let w ← digit? d
  let v := ((x * 10 + y) * 10 + z) * 10 + w
  if lo ≤ v ∧ v ≤ hi then some v else none

/-- Nanoseconds denoted by the digits after the decimal point; the Go
`parseNanoseconds` function keeps at most nine digits and scales up. -/
def nsecOfDigits (ds : List Char) : Nat :=
  let ds9 := ds.take 9
  (ds9.foldl (fun acc c => acc * 10 + (c.toNat - 48)) 0) * 10 ^ (9 - ds9.length)

/-- Optional fractional-second field `.ddd…` after the seconds, as in
the Go RFC3339 fast path; returns the nanoseconds and the rest. -/
def parseFrac : List Char → Nat × List Char
  | '.' :: c :: rest =>
    if c.isDigit then
      let ds := (c :: rest).takeWhile Char.isDigit
      (nsecOfDigits ds, (c :: rest).dropWhile Char.isDigit)
    else (0, '.' :: c :: rest)
  | l => (0, l)

/-- Model of Go `time.Parse(time.RFC3339, s)`, following the strict
RFC3339 fast path `parseRFC3339`: `YYYY-MM-DDTHH:MM:SS`, optional
fractional seconds, then `Z` or a `±hh:mm` numeric zone offset. -/
def parseRFC3339 (s : String) : Option Time :=
  match s.data with
  | y1 :: y2 :: y3 :: y4 :: '-' :: m1 :: m2 :: '-' :: d1 :: d2 :: 'T' ::
    h1 :: h2 :: ':' :: n1 :: n2 :: ':' :: s1 :: s2 :: rest => do
    let year ← parseUint4 y1 y2 y3 y4 0 9999
    let month ← parseUint2 m1 m2 1 12
    let day ← parseUint2 d1 d2 1 (daysIn month (year : Int))
    let hourv ← parseUint2 h1 h2 0 23
    let minv ← parseUint2 n1 n2 0 59
    let secv ← parseUint2 s1 s2 0 59
    let (nsec, rest2) := parseFrac rest
    let t : Int := dateToSec (year : Int) month day hourv minv secv
    match rest2 with
    | ['Z'] => some ⟨t, nsec⟩
    | [sign, z1, z2, ':', z3, z4] =>
      if sign = '+' ∨ sign = '-' then do
        let zh ← parseUint2 z1 z2 0 23
        let zm ← parseUint2 z3 z4 0 59
        let off : Int := ((zh * 60 + zm) * 60 : Nat)
        some ⟨t - (if sign = '+' then off else -off), nsec⟩
      else none
    | _ => none
  | _ => none

end GoTime

open GoStrings GoTime

/-- The parsed security.txt record, from `txt.go` (`type TXT struct`). -/
structure TXT where
  Acknowledgments : List String := []
  Canonical : List String := []
  Contact : List String := []
  Encryption : String := ""
  Hiring : String := ""
  Policy : String := ""
  PreferredLanguages : List String := []
  Expires : GoTime.Time := GoTime.zero
deriving DecidableEq

/-- The Go zero value `var txt TXT`. -/
def emptyTXT : TXT := {}

/-- Model of Go `prefixed`: appends the field-separating colon. -/
def withColon (s : String) : String := s ++ ":"

def commentMark : String := "#"
def policyMark : String := withColon "Policy"
def hiringMark : String := withColon "Hiring"
def contactMark : String := withColon "Contact"
def expiresMark : String := withColon "Expires"
def canonicalMark : String := withColon "Canonical"
def encryptionMark : String := withColon "Encryption"
def acknowledgmentsMark : String := withColon "Acknowledgments"
def preferredLanguagesMark : String := withColon "Preferred-Languages"

/-- The closed set of error values `Parse` can return, from the
`Err…` variables, `UnknownSymbolError`, and the `fmt.Errorf` wrap of a
stream-read error. -/
inductive ParseError where
  | expiresMustBePresentOnlyOnce
  | preferredLanguagesMustBePresentOnlyOnce
  | contactMustBePresent
  | expiresMustBePresent
  | expiresNotAValidRFC3339Date
  | unknownSymbol (line : String)
  | readError (msg : String)
deriving DecidableEq

/-- An `io.Reader` as seen through `bufio.Scanner`: the line tokens the
scanner yields, and the underlying read error (if any) that
`scanner.Err()` reports once `Scan` returns false. -/
structure Reader where
  lines : List String
  readErr : Option String := none

/-- One iteration of the scan loop of `Parser.Parse`: trim the line,
skip comments and blanks, dispatch on the first matching field marker
in source order, or fail. -/
def parseLine (txt : TXT) (raw : String) : Except ParseError TXT :=
  let line := TrimSpace raw
  if HasPre line commentMark = true ∨ line = "" then
    .ok txt
  else if HasPre line acknowledgmentsMark = true then
    let value := Trim (TrimPre line acknowledgmentsMark) " "
    .ok { txt with Acknowledgments := txt.Acknowledgments ++ [value] }
  else if HasPre line canonicalMark = true then
    let value := Trim (TrimPre line canonicalMark) " "
    .ok { txt with Canonical := txt.Canonical ++ [value] }
  else if HasPre line contactMark = true then
    let value := Trim (TrimPre line contactMark) " "
    .ok { txt with Contact := txt.Contact ++ [value] }
  else if HasPre line encryptionMark = true then
    let value := Trim (TrimPre line encryptionMark) " "
    .ok { txt with Encryption := value }
  else if HasPre line hiringMark = true then
    let value := Trim (TrimPre line hiringMark) " "
    .ok { txt with Hiring := value }
  else if HasPre line expiresMark = true then
    if txt.Expires.IsZero = false then
      .error .expiresMustBePresentOnlyOnce
    else
      let value := Trim (TrimPre line expiresMark) " "
      match parseRFC3339 value with
      | none => .error .expiresNotAValidRFC3339Date
      | some expires => .ok { txt with Expires := expires }
  else if HasPre line policyMark = true then
    let value := Trim (TrimPre line policyMark) " "
    .ok { txt with Policy := value }
  else if HasPre line preferredLanguagesMark = true then
    if txt.PreferredLanguages.length ≠ 0 then
      .error .preferredLanguagesMustBePresentOnlyOnce
    else
      let value := Trim (TrimPre line preferredLanguagesMark) " "
      .ok { txt with PreferredLanguages :=
        txt.PreferredLanguages ++ (Split value ',').map (fun v => Trim v " ") }
  else
    .error (.unknownSymbol line)

/-- The scan loop of `Parser.Parse` over the line tokens of the scanner. -/
def parseLines (txt : TXT) : List String → Except ParseError TXT
  | [] => .ok txt
  | l :: ls =>
    match parseLine txt l with
    | .error e => .error e
    | .ok txt2 => parseLines txt2 ls

/-- Model of `Parser.Parse`: run the scan loop, then the completeness
checks on `Contact` and `Expires`, then surface any scanner error. -/
def Parse (s : Reader) : Except ParseError TXT :=
  match parseLines emptyTXT s.lines with
  | .error e => .error e
  | .ok txt =>
    if txt.Contact.length = 0 then .error .contactMustBePresent
    else if txt.Expires.IsZero = true then .error .expiresMustBePresent
    else
      match s.readErr with
      | some msg => .error (.readError msg)
      | none => .ok txt

/-- A structured network location, modelling the fields of `net/url.URL`
that `ParseFromURL` reads (`Path` and `String()`), for absolute URLs of
the shape `scheme://host[/path]` without query, fragment or userinfo. -/
structure GoURL where
  scheme : String
  host : String
  path : String
deriving DecidableEq

/-- Model of `url.String()` on such a URL (round-trips `urlParse`). -/
def GoURL.toStr (u : GoURL) : String :=
  u.scheme ++ "://" ++ u.host ++ u.path

/-- Model of `net/url.Parse` restricted to absolute URLs of the shape
`scheme://host[/path]`: everything before the first `:` is the scheme,
the authority runs to the next `/`, and the rest (slash included) is
the path.  Anything else is rejected as malformed. -/
def urlParse (raw : String) : Option GoURL :=
  let p := raw.data.span (fun c => c ≠ ':')
  match p.2 with
  | ':' :: '/' :: '/' :: rest =>
    if p.1 = [] then none
    else
      let q := rest.span (fun c => c ≠ '/')
      some ⟨String.mk p.1, String.mk q.1, String.mk q.2⟩
  | _ => none

/-- What the injected HTTP client returns for one `Get`: a transport
error, or a response with a status code and a body stream. -/
inductive FetchResult where
  | transportError (msg : String)
  | response (statusCode : Nat) (body : Reader)

/-- The injected fetch capability (`p.httpClient.Get`). -/
def Fetch : Type := String → FetchResult

/-- The failure of one resolution attempt: a transport error, the
`statusCodeError` from `errors.go` (status code and URL attempted), or
a parse error carried through. -/
inductive ResolveError where
  | transport (msg : String)
  | statusCodeError (statusCode : Nat) (url : String)
  | parseErr (e : ParseError)
deriving DecidableEq

/-- What `ParseFromURL` returns on failure: the malformed-URL error, or
the `multierror` aggregate of the per-attempt failures in order. -/
inductive ResolveFailure where
  | malformedURL (raw : String)
  | aggregated (errs : List ResolveError)
deriving DecidableEq

/-- Model of the unexported `parseFromURL`: fetch the URL, classify a
non-2xx status (`resp.StatusCode > 299`) as a `statusCodeError`, else
parse the body. -/
def parseFromURL (fetch : Fetch) (url : String) : Except ResolveError TXT :=
  match fetch url with
  | .transportError msg => .error (.transport msg)
  | .response code body =>
    if code > 299 then .error (.statusCodeError code url)
    else
      match Parse body with
      | .error e => .error (.parseErr e)
      | .ok txt => .ok txt

/-- The retry loop of `ParseFromURL` over the fixed candidate relative
paths, accumulating failures in attempt order. -/
def tryPaths (fetch : Fetch) (trimmedURL : String) :
    List String → List ResolveError → Except ResolveFailure TXT
  | [], errs => .error (.aggregated errs)
  | p :: ps, errs =>
    let newURL := trimmedURL ++ "/" ++ p
    match parseFromURL fetch newURL with
    | .ok res => .ok res
    | .error err => tryPaths fetch trimmedURL ps (errs ++ [err])

/-- Model of `Parser.ParseFromURL`: parse the base location, try it
verbatim, and only when its path is empty or `/` retry at
`security.txt` and `.well-known/security.txt` (in that order, trailing
slash trimmed first), returning the first success or the aggregate of
all failures. -/
def ParseFromURL (fetch : Fetch) (rawURL : String) : Except ResolveFailure TXT :=
  match urlParse rawURL with
  | none => .error (.malformedURL rawURL)
  | some url =>
    match parseFromURL fetch rawURL with
    | .ok res => .ok res
    | .error err =>
      let multiErr := [err]
      if url.path = "/" ∨ url.path = "" then
        let trimmedURL := TrimSuf url.toStr "/"
        tryPaths fetch trimmedURL ["security.txt", ".well-known/security.txt"] multiErr
      else
        .error (.aggregated multiErr)

theorem hasPre_excl {s p q : String}
    (h : HasPre s p = true)
    (h1 : ¬ (p.data <+: q.data)) (h2 : ¬ (q.data <+: p.data)) :
    HasPre s q = false := by
  unfold GoStrings.HasPre at *
  rw [List.isPrefixOf_iff_prefix] at h
  by_contra hq
  rw [Bool.not_eq_false, List.isPrefixOf_iff_prefix] at hq
  rcases List.prefix_or_prefix_of_prefix h hq with hc | hc
  · exact h1 hc
  · exact h2 hc

theorem hasPre_ne_empty {s p : String}
    (h : HasPre s p = true) (hp : p.data ≠ []) : ¬ (s = "") := by
  intro he
  subst he
  unfold GoStrings.HasPre at h
  rw [List.isPrefixOf_iff_prefix] at h
  exact hp (List.prefix_nil.mp h)

theorem parseLine_contact (txt : TXT) (raw : String)
    (h : HasPre (TrimSpace raw) contactMark = true) :
    parseLine txt raw =
      .ok { txt with Contact :=
        txt.Contact ++ [Trim (TrimPre (TrimSpace raw) contactMark) " "] } := by
  have hc : HasPre (TrimSpace raw) commentMark = false :=
    hasPre_excl h (by decide) (by decide)
  have ha : HasPre (TrimSpace raw) acknowledgmentsMark = false :=
    hasPre_excl h (by decide) (by decide)
  have hca : HasPre (TrimSpace raw) canonicalMark = false :=
    hasPre_excl h (by decide) (by decide)
  have hne : ¬ (TrimSpace raw = "") := hasPre_ne_empty h (by decide)
  simp [parseLine, hc, ha, hca, h, hne]

theorem parseLine_acknowledgments (txt : TXT) (raw : String)
    (h : HasPre (TrimSpace raw) acknowledgmentsMark = true) :
    parseLine txt raw =
      .ok { txt with Acknowledgments :=
        txt.Acknowledgments ++ [Trim (TrimPre (TrimSpace raw) acknowledgmentsMark) " "] } := by
  have hc : HasPre (TrimSpace raw) commentMark = false :=
    hasPre_excl h (by decide) (by decide)
  have hne : ¬ (TrimSpace raw = "") := hasPre_ne_empty h (by decide)
  simp [parseLine, hc, h, hne]

theorem parseLine_canonical (txt : TXT) (raw : String)
    (h : HasPre (TrimSpace raw) canonicalMark = true) :
    parseLine txt raw =
      .ok { txt with Canonical :=
        txt.Canonical ++ [Trim (TrimPre (TrimSpace raw) canonicalMark) " "] } := by
  have hc : HasPre (TrimSpace raw) commentMark = false :=
    hasPre_excl h (by decide) (by decide)
  have ha : HasPre (TrimSpace raw) acknowledgmentsMark = false :=
    hasPre_excl h (by decide) (by decide)
  have hne : ¬ (TrimSpace raw = "") := hasPre_ne_empty h (by decide)
  simp [parseLine, hc, ha, h, hne]

theorem parseLine_encryption (txt : TXT) (raw : String)
    (h : HasPre (TrimSpace raw) encryptionMark = true) :
    parseLine txt raw =
      .ok { txt with Encryption := Trim (TrimPre (TrimSpace raw) encryptionMark) " " } := by
  have hc : HasPre (TrimSpace raw) commentMark = false :=
    hasPre_excl h (by decide) (by decide)
  have ha : HasPre (TrimSpace raw) acknowledgmentsMark = false :=
    hasPre_excl h (by decide) (by decide)
  have hca : HasPre (TrimSpace raw) canonicalMark = false :=
    hasPre_excl h (by decide) (by decide)
  have hco : HasPre (TrimSpace raw) contactMark = false :=
    hasPre_excl h (by decide) (by decide)
  have hne : ¬ (TrimSpace raw = "") := hasPre_ne_empty h (by decide)
  simp [parseLine, hc, ha, hca, hco, h, hne]

theorem parseLine_hiring (txt : TXT) (raw : String)
    (h : HasPre (TrimSpace raw) hiringMark = true) :
    parseLine txt raw =
      .ok { txt with Hiring := Trim (TrimPre (TrimSpace raw) hiringMark) " " } := by
  have hc : HasPre (TrimSpace raw) commentMark = false :=
    hasPre_excl h (by decide) (by decide)
  have ha : HasPre (TrimSpace raw) acknowledgmentsMark = false :=
    hasPre_excl h (by decide) (by decide)
  have hca : HasPre (TrimSpace raw) canonicalMark = false :=
    hasPre_excl h (by decide) (by decide)
  have hco : HasPre (TrimSpace raw) contactMark = false :=
    hasPre_excl h (by decide) (by decide)
  have hen : HasPre (TrimSpace raw) encryptionMark = false :=
    hasPre_excl h (by decide) (by decide)
  have hne : ¬ (TrimSpace raw = "") := hasPre_ne_empty h (by decide)
  simp [parseLine, hc, ha, hca, hco, hen, h, hne]

theorem parseLine_expires_dup (txt : TXT) (raw : String)
    (h : HasPre (TrimSpace raw) expiresMark = true)
    (hz : txt.Expires.IsZero = false) :
    parseLine txt raw = .error .expiresMustBePresentOnlyOnce := by
  have hc : HasPre (TrimSpace raw) commentMark = false :=
    hasPre_excl h (by decide) (by decide)
  have ha : HasPre (TrimSpace raw) acknowledgmentsMark = false :=
    hasPre_excl h (by decide) (by decide)
  have hca : HasPre (TrimSpace raw) canonicalMark = false :=
    hasPre_excl h (by decide) (by decide)
  have hco : HasPre (TrimSpace raw) contactMark = false :=
    hasPre_excl h (by decide) (by decide)
  have hen : HasPre (TrimSpace raw) encryptionMark = false :=
    hasPre_excl h (by decide) (by decide)
  have hhi : HasPre (TrimSpace raw) hiringMark = false :=
    hasPre_excl h (by decide) (by decide)
  have hne : ¬ (TrimSpace raw = "") := hasPre_ne_empty h (by decide)
  simp [parseLine, hc, ha, hca, hco, hen, hhi, h, hne, hz]

theorem parseLine_policy (txt : TXT) (raw : String)
    (h : HasPre (TrimSpace raw) policyMark = true) :
    parseLine txt raw =
      .ok { txt with Policy := Trim (TrimPre (TrimSpace raw) policyMark) " " } := by
  have hc : HasPre (TrimSpace raw) commentMark = false :=
    hasPre_excl h (by decide) (by decide)
  have ha : HasPre (TrimSpace raw) acknowledgmentsMark = false :=
    hasPre_excl h (by decide) (by decide)
  have hca : HasPre (TrimSpace raw) canonicalMark = false :=
    hasPre_excl h (by decide) (by decide)
  have hco : HasPre (TrimSpace raw) contactMark = false :=
    hasPre_excl h (by decide) (by decide)
  have hen : HasPre (TrimSpace raw) encryptionMark = false :=
    hasPre_excl h (by decide) (by decide)
  have hhi : HasPre (TrimSpace raw) hiringMark = false :=
    hasPre_excl h (by decide) (by decide)
  have hex : HasPre (TrimSpace raw) expiresMark = false :=
    hasPre_excl h (by decide) (by decide)
  have hne : ¬ (TrimSpace raw = "") := hasPre_ne_empty h (by decide)
  simp [parseLine, hc, ha, hca, hco, hen, hhi, hex, h, hne]

theorem parseLine_preferredLanguages_dup (txt : TXT) (raw : String)
    (h : HasPre (TrimSpace raw) preferredLanguagesMark = true)
    (hpl : txt.PreferredLanguages ≠ []) :
    parseLine txt raw = .error .preferredLanguagesMustBePresentOnlyOnce := by
  have hc : HasPre (TrimSpace raw) commentMark = false :=
    hasPre_excl h (by decide) (by decide)
  have ha : HasPre (TrimSpace raw) acknowledgmentsMark = false :=
    hasPre_excl h (by decide) (by decide)
  have hca : HasPre (TrimSpace raw) canonicalMark = false :=
    hasPre_excl h (by decide) (by decide)
  have hco : HasPre (TrimSpace raw) contactMark = false :=
    hasPre_excl h (by decide) (by decide)
  have hen : HasPre (TrimSpace raw) encryptionMark = false :=
    hasPre_excl h (by decide) (by decide)
  have hhi : HasPre (TrimSpace raw) hiringMark = false :=
    hasPre_excl h (by decide) (by decide)
  have hex : HasPre (TrimSpace raw) expiresMark = false :=
    hasPre_excl h (by decide) (by decide)
  have hpo : HasPre (TrimSpace raw) policyMark = false :=
    hasPre_excl h (by decide) (by decide)
  have hne : ¬ (TrimSpace raw = "") := hasPre_ne_empty h (by decide)
  simp [parseLine, hc, ha, hca, hco, hen, hhi, hex, hpo, h, hne, hpl]

theorem parseLine_preferredLanguages_set (txt : TXT) (raw : String)
    (h : HasPre (TrimSpace raw) preferredLanguagesMark = true)
    (hpl : txt.PreferredLanguages = []) :
    parseLine txt raw =
      .ok { txt with PreferredLanguages := (Split (Trim (TrimPre (TrimSpace raw) preferredLanguagesMark) " ") ',').map (fun v => Trim v " ") } := by
  have hc : HasPre (TrimSpace raw) commentMark = false :=
    hasPre_excl h (by decide) (by decide)
  have ha : HasPre (TrimSpace raw) acknowledgmentsMark = false :=
    hasPre_excl h (by decide) (by decide)
  have hca : HasPre (TrimSpace raw) canonicalMark = false :=
    hasPre_excl h (by decide) (by decide)
  have hco : HasPre (TrimSpace raw) contactMark = false :=
    hasPre_excl h (by decide) (by decide)
  have hen : HasPre (TrimSpace raw) encryptionMark = false :=
    hasPre_excl h (by decide) (by decide)
  have hhi : HasPre (TrimSpace raw) hiringMark = false :=
    hasPre_excl h (by decide) (by decide)
  have hex : HasPre (TrimSpace raw) expiresMark = false :=
    hasPre_excl h (by decide) (by decide)
  have hpo : HasPre (TrimSpace raw) policyMark = false :=
    hasPre_excl h (by decide) (by decide)
  have hne : ¬ (TrimSpace raw = "") := hasPre_ne_empty h (by decide)
  simp [parseLine, hc, ha, hca, hco, hen, hhi, hex, hpo, h, hne, hpl]

theorem parseLine_skip (txt : TXT) (raw : String)
    (h : HasPre (TrimSpace raw) commentMark = true ∨ TrimSpace raw = "") :
    parseLine txt raw = .ok txt := by
  simp [parseLine, h]

theorem parseLine_unknown (txt : TXT) (raw : String)
    (hc : HasPre (TrimSpace raw) commentMark = false)
    (hne : ¬ (TrimSpace raw = ""))
    (ha : HasPre (TrimSpace raw) acknowledgmentsMark = false)
    (hca : HasPre (TrimSpace raw) canonicalMark = false)
    (hco : HasPre (TrimSpace raw) contactMark = false)
    (hen : HasPre (TrimSpace raw) encryptionMark = false)
    (hhi : HasPre (TrimSpace raw) hiringMark = false)
    (hex : HasPre (TrimSpace raw) expiresMark = false)
    (hpo : HasPre (TrimSpace raw) policyMark = false)
    (hpl : HasPre (TrimSpace raw) preferredLanguagesMark = false) :
    parseLine txt raw = .error (.unknownSymbol (TrimSpace raw)) := by
  simp [parseLine, hc, ha, hca, hco, hen, hhi, hex, hpo, hpl, hne]

theorem parseLines_append_error {pre : List String} {txt0 txt : TXT}
    {line : String} {e : ParseError}
    (hpre : parseLines txt0 pre = .ok txt)
    (hline : parseLine txt line = .error e) (rest : List String) :
    parseLines txt0 (pre ++ line :: rest) = .error e := by
  induction pre generalizing txt0 with
  | nil =>
    simp only [parseLines] at hpre
    cases hpre
    simp [parseLines, hline]
  | cons l ls ih =>
    simp only [List.cons_append, parseLines] at hpre ⊢
    cases hl : parseLine txt0 l with
    | error e' => rw [hl] at hpre; cases hpre
    | ok txt2 =>
      rw [hl] at hpre
      exact ih hpre

theorem Parse_error_lift {pre : List String} {txt : TXT}
    {line : String} {e : ParseError}
    (hpre : parseLines emptyTXT pre = .ok txt)
    (hline : parseLine txt line = .error e)
    (rest : List String) (re : Option String) :
    Parse ⟨pre ++ line :: rest, re⟩ = .error e := by
  unfold Parse
  rw [parseLines_append_error hpre hline rest]

/-- C1: whenever `Parse` returns a document, its `Contact` sequence is
non-empty and its `Expires` timestamp is not the zero value; and once
the scan loop has consumed all lines successfully, an empty `Contact`
makes `Parse` fail with the contact-required error, and (that check
passing) an unset `Expires` makes it fail with the expires-required
error. -/
theorem C1_parse_completeness (s : Reader) (txt : TXT) :
    (Parse s = .ok txt → txt.Contact ≠ [] ∧ txt.Expires.IsZero = false) ∧
    (parseLines emptyTXT s.lines = .ok txt →
      (txt.Contact = [] → Parse s = .error .contactMustBePresent) ∧
      (txt.Contact ≠ [] → txt.Expires.IsZero = true →
        Parse s = .error .expiresMustBePresent)) := by
  constructor
  · intro h
    unfold Parse at h
    cases hp : parseLines emptyTXT s.lines with
    | error e => rw [hp] at h; cases h
    | ok txt2 =>
      rw [hp] at h
      dsimp only at h
      by_cases h1 : txt2.Contact.length = 0
      · rw [if_pos h1] at h; cases h
      · rw [if_neg h1] at h
        by_cases h2 : txt2.Expires.IsZero = true
        · rw [if_pos h2] at h; cases h
        · rw [if_neg h2] at h
          cases hre : s.readErr with
          | some m => rw [hre] at h; cases h
          | none =>
            rw [hre] at h
            cases h
            refine ⟨fun hc => h1 (by rw [hc]; rfl), ?_⟩
            simpa using h2
  · intro hp
    constructor
    · intro hc
      unfold Parse
      rw [hp]
      dsimp only
      rw [if_pos (by rw [hc]; rfl)]
    · intro hc hz
      unfold Parse
      rw [hp]
      dsimp only
      rw [if_neg (fun h0 => hc (List.length_eq_zero.mp h0)), if_pos hz]

/-- C1 witness: a stream with a contact but no expiry exercises the
expires-required branch. -/
theorem C1_parse_completeness_witness :
    Parse ⟨["Contact: mailto:a@b.c"], none⟩ = .error .expiresMustBePresent :=
  ((C1_parse_completeness ⟨["Contact: mailto:a@b.c"], none⟩
      { Contact := ["mailto:a@b.c"] }).2 rfl).2 (by decide) rfl

/-- C2 counterexample: an input in which the Expires field line appears
twice, parsing successfully with no duplicate-Expires error, because
the first occurrence carries the RFC3339 zero timestamp and so leaves
the stored Expires zero. -/
theorem C2_counterexample :
    Parse ⟨["Contact: mailto:s@e.c", "Expires: 0001-01-01T00:00:00Z",
            "Expires: 2021-12-31T23:59:59Z"], none⟩ ≠
      .error .expiresMustBePresentOnlyOnce ∧
    Parse ⟨["Contact: mailto:s@e.c", "Expires: 0001-01-01T00:00:00Z",
            "Expires: 2021-12-31T23:59:59Z"], none⟩ =
      .ok { Contact := ["mailto:s@e.c"], Expires := ⟨63776591999, 0⟩ } :=
  ⟨(fun h => nomatch h), rfl⟩

/-- C2 amended: when an Expires field line is encountered while the
stored Expires is already non-zero (a previous Expires line parsed to
a non-zero timestamp), `Parse` returns the duplicate-Expires error,
regardless of the value carried on the later line. -/
theorem C2_expires_duplicate (pre : List String) (txt : TXT) (line : String)
    (rest : List String) (re : Option String)
    (hpre : parseLines emptyTXT pre = .ok txt)
    (hz : txt.Expires.IsZero = false)
    (h : HasPre (TrimSpace line) expiresMark = true) :
    Parse ⟨pre ++ line :: rest, re⟩ = .error .expiresMustBePresentOnlyOnce :=
  Parse_error_lift hpre (parseLine_expires_dup txt line h hz) rest re

/-- C2 witness: a second Expires line (even with an invalid value)
after a non-zero one triggers the duplicate-Expires error. -/
theorem C2_expires_duplicate_witness :
    Parse ⟨["Expires: 2021-12-31T23:59:59Z", "Expires: not-a-date"], none⟩ =
      .error .expiresMustBePresentOnlyOnce :=
  C2_expires_duplicate ["Expires: 2021-12-31T23:59:59Z"]
    { Expires := ⟨63776591999, 0⟩ } "Expires: not-a-date" [] none rfl rfl rfl

/-- C10: the RFC3339 encoding of the zero timestamp parses successfully
to the Go zero time, so a document that stored it behaves as if Expires
were unset: a later Expires line does not trigger the duplicate error,
and an otherwise-valid input whose only Expires line carries that value
fails with the missing-Expires error. -/
theorem C10_zero_expires_acts_unset :
    parseRFC3339 "0001-01-01T00:00:00Z" = some GoTime.zero ∧
    GoTime.zero.IsZero = true ∧
    Parse ⟨["Contact: mailto:go@sec.to", "Expires: 0001-01-01T00:00:00Z",
            "Expires: 2022-02-02T00:00:00Z"], none⟩ =
      .ok { Contact := ["mailto:go@sec.to"], Expires := ⟨63779356800, 0⟩ } ∧
    Parse ⟨["Contact: mailto:go@sec.to", "Expires: 0001-01-01T00:00:00Z"], none⟩ =
      .error .expiresMustBePresent :=
  ⟨rfl, ⟨rfl, ⟨rfl, rfl⟩⟩⟩

/-- C5: a Preferred-Languages line hit while the sequence is already
populated makes `Parse` fail immediately with the duplicate error (even
for an identical repeat); otherwise the value is split on commas, each
piece trimmed of surrounding spaces, and the tags appended in order
with no grammar validation, as the concrete example
`Preferred-Languages: en, es , fr` shows. -/
theorem C5_preferred_languages (pre : List String) (txt : TXT) (line : String)
    (rest : List String) (re : Option String) :
    (parseLines emptyTXT pre = .ok txt → txt.PreferredLanguages ≠ [] →
      HasPre (TrimSpace line) preferredLanguagesMark = true →
      Parse ⟨pre ++ line :: rest, re⟩ =
        .error .preferredLanguagesMustBePresentOnlyOnce) ∧
    (txt.PreferredLanguages = [] →
      HasPre (TrimSpace line) preferredLanguagesMark = true →
      parseLine txt line =
        .ok { txt with PreferredLanguages := (Split (Trim (TrimPre (TrimSpace line) preferredLanguagesMark) " ") ',').map (fun v => Trim v " ") }) ∧
    Parse ⟨["Contact: mailto:l@ng.eu", "Expires: 2030-01-01T00:00:00Z",
            "Preferred-Languages: en, es , fr"], none⟩ =
      .ok { Contact := ["mailto:l@ng.eu"], Expires := ⟨64029052800, 0⟩,
            PreferredLanguages := ["en", "es", "fr"] } := by
  refine ⟨?_, ?_, rfl⟩
  · intro hpre hpl h
    exact Parse_error_lift hpre
      (parseLine_preferredLanguages_dup txt line h hpl) rest re
  · intro hpl h
    exact parseLine_preferredLanguages_set txt line h hpl

/-- C5 witness: an identical second Preferred-Languages line triggers
the duplicate error, and a populated line splits and trims. -/
theorem C5_preferred_languages_witness :
    Parse ⟨["Preferred-Languages: en", "Preferred-Languages: en"], none⟩ =
      .error .preferredLanguagesMustBePresentOnlyOnce :=
  (C5_preferred_languages ["Preferred-Languages: en"]
      { PreferredLanguages := ["en"] } "Preferred-Languages: en" [] none).1
    rfl (by decide) rfl

/-- C6: Acknowledgments, Canonical and Contact lines append their
trimmed values to the corresponding sequence, preserving source order
and duplicates; in particular two Contact lines with different values
yield a two-element Contact sequence in source order. -/
theorem C6_multivalued_append (txt : TXT) (line : String) :
    (HasPre (TrimSpace line) acknowledgmentsMark = true →
      parseLine txt line =
        .ok { txt with Acknowledgments := txt.Acknowledgments ++ [Trim (TrimPre (TrimSpace line) acknowledgmentsMark) " "] }) ∧
    (HasPre (TrimSpace line) canonicalMark = true →
      parseLine txt line =
        .ok { txt with Canonical := txt.Canonical ++ [Trim (TrimPre (TrimSpace line) canonicalMark) " "] }) ∧
    (HasPre (TrimSpace line) contactMark = true →
      parseLine txt line =
        .ok { txt with Contact := txt.Contact ++ [Trim (TrimPre (TrimSpace line) contactMark) " "] }) ∧
    Parse ⟨["Contact: mailto:one@a.io", "Contact: mailto:two@a.io",
            "Expires: 2030-01-01T00:00:00Z"], none⟩ =
      .ok { Contact := ["mailto:one@a.io", "mailto:two@a.io"],
            Expires := ⟨64029052800, 0⟩ } :=
  ⟨parseLine_acknowledgments txt line,
   ⟨parseLine_canonical txt line, ⟨parseLine_contact txt line, rfl⟩⟩⟩

/-- C6 witness: an Acknowledgments line appended to a document that
already holds one entry keeps both, in order. -/
theorem C6_multivalued_append_witness :
    parseLine { emptyTXT with Acknowledgments := ["https://a.io/hall"] }
        "Acknowledgments: https://a.io/hall" =
      .ok { emptyTXT with
        Acknowledgments := ["https://a.io/hall", "https://a.io/hall"] } :=
  (C6_multivalued_append { emptyTXT with Acknowledgments := ["https://a.io/hall"] }
      "Acknowledgments: https://a.io/hall").1 rfl

/-- C8: a line whose trimmed text is non-empty, is no comment and
matches none of the eight field markers makes `Parse` fail immediately
with the unknown-line error carrying exactly that trimmed text, while
trimmed-empty and comment lines are skipped with no effect. -/
theorem C8_unknown_line (pre : List String) (txt : TXT) (line : String)
    (rest : List String) (re : Option String) :
    (parseLines emptyTXT pre = .ok txt →
      HasPre (TrimSpace line) commentMark = false →
      ¬ (TrimSpace line = "") →
      HasPre (TrimSpace line) acknowledgmentsMark = false →
      HasPre (TrimSpace line) canonicalMark = false →
      HasPre (TrimSpace line) contactMark = false →
      HasPre (TrimSpace line) encryptionMark = false →
      HasPre (TrimSpace line) hiringMark = false →
      HasPre (TrimSpace line) expiresMark = false →
      HasPre (TrimSpace line) policyMark = false →
      HasPre (TrimSpace line) preferredLanguagesMark = false →
      Parse ⟨pre ++ line :: rest, re⟩ =
        .error (.unknownSymbol (TrimSpace line))) ∧
    (HasPre (TrimSpace line) commentMark = true ∨ TrimSpace line = "" →
      parseLine txt line = .ok txt) := by
  constructor
  · intro hpre hc hne ha hca hco hen hhi hex hpo hpl
    exact Parse_error_lift hpre
      (parseLine_unknown txt line hc hne ha hca hco hen hhi hex hpo hpl) rest re
  · exact parseLine_skip txt line

/-- C8 witness: an unrecognized line fails with its trimmed text, and a
comment line is skipped. -/
theorem C8_unknown_line_witness :
    Parse ⟨["  Unknown-Field: x  "], none⟩ =
      .error (.unknownSymbol "Unknown-Field: x") ∧
    parseLine emptyTXT "# a comment" = .ok emptyTXT :=
  ⟨(C8_unknown_line [] emptyTXT "  Unknown-Field: x  " [] none).1 rfl
      rfl (by decide) rfl rfl rfl rfl rfl rfl rfl rfl,
   (C8_unknown_line [] emptyTXT "# a comment" [] none).2 (Or.inl rfl)⟩

/-- C9: when the underlying read fails and no line triggered a
structural error (and the completeness checks pass), `Parse` surfaces
the stream-read failure as the wrapped I/O error, checked after the
main loop. -/
theorem C9_stream_read_error (s : Reader) (txt : TXT) (msg : String)
    (hre : s.readErr = some msg)
    (hp : parseLines emptyTXT s.lines = .ok txt)
    (hc : txt.Contact ≠ [])
    (hz : txt.Expires.IsZero = false) :
    Parse s = .error (.readError msg) := by
  unfold Parse
  rw [hp]
  dsimp only
  rw [if_neg (fun h0 => hc (List.length_eq_zero.mp h0)),
    if_neg (by rw [hz]; exact Bool.false_ne_true), hre]

/-- C9 witness: a failed read behind a well-formed document surfaces as
the wrapped read error. -/
theorem C9_stream_read_error_witness :
    Parse ⟨["Contact: mailto:io@err.is", "Expires: 2030-01-01T00:00:00Z"],
           some "connection reset"⟩ = .error (.readError "connection reset") :=
  C9_stream_read_error
    ⟨["Contact: mailto:io@err.is", "Expires: 2030-01-01T00:00:00Z"],
     some "connection reset"⟩
    { Contact := ["mailto:io@err.is"], Expires := ⟨64029052800, 0⟩ }
    "connection reset" rfl rfl (by decide) rfl

theorem parseLine_expires_ok (txt : TXT) (raw : String)
    (h : HasPre (TrimSpace raw) expiresMark = true)
    (hz : txt.Expires.IsZero = true) :
    parseLine txt raw =
      match parseRFC3339 (Trim (TrimPre (TrimSpace raw) expiresMark) " ") with
      | none => .error .expiresNotAValidRFC3339Date
      | some expires => .ok { txt with Expires := expires } := by
  have hc : HasPre (TrimSpace raw) commentMark = false :=
    hasPre_excl h (by decide) (by decide)
  have ha : HasPre (TrimSpace raw) acknowledgmentsMark = false :=
    hasPre_excl h (by decide) (by decide)
  have hca : HasPre (TrimSpace raw) canonicalMark = false :=
    hasPre_excl h (by decide) (by decide)
  have hco : HasPre (TrimSpace raw) contactMark = false :=
    hasPre_excl h (by decide) (by decide)
  have hen : HasPre (TrimSpace raw) encryptionMark = false :=
    hasPre_excl h (by decide) (by decide)
  have hhi : HasPre (TrimSpace raw) hiringMark = false :=
    hasPre_excl h (by decide) (by decide)
  have hne : ¬ (TrimSpace raw = "") := hasPre_ne_empty h (by decide)
  simp [parseLine, hc, ha, hca, hco, hen, hhi, h, hne, hz]

theorem parseLine_single_frame (txt txt2 : TXT) (raw : String)
    (h : parseLine txt raw = .ok txt2) :
    (HasPre (TrimSpace raw) encryptionMark = false → txt2.Encryption = txt.Encryption) ∧
    (HasPre (TrimSpace raw) hiringMark = false → txt2.Hiring = txt.Hiring) ∧
    (HasPre (TrimSpace raw) policyMark = false → txt2.Policy = txt.Policy) := by
  by_cases hc : HasPre (TrimSpace raw) commentMark = true
  · rw [parseLine_skip txt raw (Or.inl hc)] at h
    cases h
    exact ⟨fun _ => rfl, fun _ => rfl, fun _ => rfl⟩
  by_cases hne : TrimSpace raw = ""
  · rw [parseLine_skip txt raw (Or.inr hne)] at h
    cases h
    exact ⟨fun _ => rfl, fun _ => rfl, fun _ => rfl⟩
  by_cases ha : HasPre (TrimSpace raw) acknowledgmentsMark = true
  · rw [parseLine_acknowledgments txt raw ha] at h
    cases h
    exact ⟨fun _ => rfl, fun _ => rfl, fun _ => rfl⟩
  by_cases hca : HasPre (TrimSpace raw) canonicalMark = true
  · rw [parseLine_canonical txt raw hca] at h
    cases h
    exact ⟨fun _ => rfl, fun _ => rfl, fun _ => rfl⟩
  by_cases hco : HasPre (TrimSpace raw) contactMark = true
  · rw [parseLine_contact txt raw hco] at h
    cases h
    exact ⟨fun _ => rfl, fun _ => rfl, fun _ => rfl⟩
  by_cases hen : HasPre (TrimSpace raw) encryptionMark = true
  · rw [parseLine_encryption txt raw hen] at h
    cases h
    exact ⟨fun hf => absurd hen (by simp [hf]), fun _ => rfl, fun _ => rfl⟩
  by_cases hhi : HasPre (TrimSpace raw) hiringMark = true
  · rw [parseLine_hiring txt raw hhi] at h
    cases h
    exact ⟨fun _ => rfl, fun hf => absurd hhi (by simp [hf]), fun _ => rfl⟩
  by_cases hex : HasPre (TrimSpace raw) expiresMark = true
  · by_cases hz : txt.Expires.IsZero = true
    · rw [parseLine_expires_ok txt raw hex hz] at h
      cases hr : parseRFC3339 (Trim (TrimPre (TrimSpace raw) expiresMark) " ") with
      | none => rw [hr] at h; cases h
      | some t =>
        rw [hr] at h
        cases h
        exact ⟨fun _ => rfl, fun _ => rfl, fun _ => rfl⟩
    · rw [parseLine_expires_dup txt raw hex (Bool.not_eq_true _ ▸ hz)] at h
      cases h
  by_cases hpo : HasPre (TrimSpace raw) policyMark = true
  · rw [parseLine_policy txt raw hpo] at h
    cases h
    exact ⟨fun _ => rfl, fun _ => rfl, fun hf => absurd hpo (by simp [hf])⟩
  by_cases hpl : HasPre (TrimSpace raw) preferredLanguagesMark = true
  · by_cases hps : txt.PreferredLanguages = []
    · rw [parseLine_preferredLanguages_set txt raw hpl hps] at h
      cases h
      exact ⟨fun _ => rfl, fun _ => rfl, fun _ => rfl⟩
    · rw [parseLine_preferredLanguages_dup txt raw hpl hps] at h
      cases h
  rw [parseLine_unknown txt raw (Bool.not_eq_true _ ▸ hc) hne
    (Bool.not_eq_true _ ▸ ha) (Bool.not_eq_true _ ▸ hca) (Bool.not_eq_true _ ▸ hco)
    (Bool.not_eq_true _ ▸ hen) (Bool.not_eq_true _ ▸ hhi) (Bool.not_eq_true _ ▸ hex)
    (Bool.not_eq_true _ ▸ hpo) (Bool.not_eq_true _ ▸ hpl)] at h
  cases h

theorem Parse_ok_parseLines {s : Reader} {txt : TXT} (h : Parse s = .ok txt) :
    parseLines emptyTXT s.lines = .ok txt := by
  unfold Parse at h
  cases hp : parseLines emptyTXT s.lines with
  | error e => rw [hp] at h; cases h
  | ok txt2 =>
    rw [hp] at h
    dsimp only at h
    split_ifs at h
    cases hre : s.readErr with
    | some m => rw [hre] at h; cases h
    | none => rw [hre] at h; cases h; rfl

/-- The value left in a single-valued overwrite field by the last line
matching `mark` (with the same trimming as the scan loop), starting from `dflt`. -/
def lastValueFor (mark : String) (lines : List String) (dflt : String) : String :=
  lines.foldl
    (fun acc raw =>
      if HasPre (TrimSpace raw) mark = true
      then Trim (TrimPre (TrimSpace raw) mark) " " else acc) dflt

theorem lastValueFor_cons (mark l : String) (ls : List String) (d : String) :
    lastValueFor mark (l :: ls) d =
      lastValueFor mark ls
        (if HasPre (TrimSpace l) mark = true
         then Trim (TrimPre (TrimSpace l) mark) " " else d) := rfl

theorem parseLines_single_valued (ls : List String) : ∀ txt0 txt1 : TXT,
    parseLines txt0 ls = .ok txt1 →
    txt1.Encryption = lastValueFor encryptionMark ls txt0.Encryption ∧
    txt1.Hiring = lastValueFor hiringMark ls txt0.Hiring ∧
    txt1.Policy = lastValueFor policyMark ls txt0.Policy := by
  induction ls with
  | nil =>
    intro txt0 txt1 h
    simp only [parseLines] at h
    cases h
    exact ⟨rfl, rfl, rfl⟩
  | cons l ls ih =>
    intro txt0 txt1 h
    simp only [parseLines] at h
    cases hl : parseLine txt0 l with
    | error e => rw [hl] at h; cases h
    | ok txt2 =>
      rw [hl] at h
      obtain ⟨ihe, ihh, ihp⟩ := ih txt2 txt1 h
      obtain ⟨fre, frh, frp⟩ := parseLine_single_frame txt0 txt2 l hl
      refine ⟨?_, ?_, ?_⟩
      · rw [lastValueFor_cons]
        by_cases hm : HasPre (TrimSpace l) encryptionMark = true
        · rw [parseLine_encryption txt0 l hm] at hl
          injection hl with hl2
          subst hl2
          rw [if_pos hm]
          exact ihe
        · rw [if_neg hm, ihe, fre (Bool.not_eq_true _ ▸ hm)]
      · rw [lastValueFor_cons]
        by_cases hm : HasPre (TrimSpace l) hiringMark = true
        · rw [parseLine_hiring txt0 l hm] at hl
          injection hl with hl2
          subst hl2
          rw [if_pos hm]
          exact ihh
        · rw [if_neg hm, ihh, frh (Bool.not_eq_true _ ▸ hm)]
      · rw [lastValueFor_cons]
        by_cases hm : HasPre (TrimSpace l) policyMark = true
        · rw [parseLine_policy txt0 l hm] at hl
          injection hl with hl2
          subst hl2
          rw [if_pos hm]
          exact ihp
        · rw [if_neg hm, ihp, frp (Bool.not_eq_true _ ▸ hm)]

/-- C7: an Encryption, Hiring or Policy line overwrites the stored
value without error, so after a successful parse each of these fields
holds the value of the last occurrence of its line (or the empty
string when the field never occurred, since the scan starts from the
zero value). -/
theorem C7_single_valued_last_wins (txt : TXT) (line : String)
    (s : Reader) (txtr : TXT) :
    (HasPre (TrimSpace line) encryptionMark = true →
      parseLine txt line =
        .ok { txt with Encryption := Trim (TrimPre (TrimSpace line) encryptionMark) " " }) ∧
    (HasPre (TrimSpace line) hiringMark = true →
      parseLine txt line =
        .ok { txt with Hiring := Trim (TrimPre (TrimSpace line) hiringMark) " " }) ∧
    (HasPre (TrimSpace line) policyMark = true →
      parseLine txt line =
        .ok { txt with Policy := Trim (TrimPre (TrimSpace line) policyMark) " " }) ∧
    (Parse s = .ok txtr →
      txtr.Encryption = lastValueFor encryptionMark s.lines "" ∧
      txtr.Hiring = lastValueFor hiringMark s.lines "" ∧
      txtr.Policy = lastValueFor policyMark s.lines "") := by
  refine ⟨parseLine_encryption txt line, parseLine_hiring txt line,
    parseLine_policy txt line, ?_⟩
  intro h
  exact parseLines_single_valued s.lines emptyTXT txtr (Parse_ok_parseLines h)

/-- C7 witness: with two Encryption lines the parsed document holds the
second value, which is also what the last-occurrence fold computes. -/
theorem C7_single_valued_last_wins_witness :
    Parse ⟨["Contact: mailto:pgp@ex.am", "Expires: 2030-01-01T00:00:00Z",
            "Encryption: https://ex.am/old.key", "Encryption: https://ex.am/new.key"],
           none⟩ =
      .ok { Contact := ["mailto:pgp@ex.am"], Encryption := "https://ex.am/new.key",
            Expires := ⟨64029052800, 0⟩ } ∧
    ({ Contact := ["mailto:pgp@ex.am"], Encryption := "https://ex.am/new.key",
       Expires := ⟨64029052800, 0⟩ } : TXT).Encryption =
      lastValueFor encryptionMark
        ["Contact: mailto:pgp@ex.am", "Expires: 2030-01-01T00:00:00Z",
         "Encryption: https://ex.am/old.key", "Encryption: https://ex.am/new.key"] "" :=
  ⟨rfl,
   ((C7_single_valued_last_wins emptyTXT ""
        ⟨["Contact: mailto:pgp@ex.am", "Expires: 2030-01-01T00:00:00Z",
          "Encryption: https://ex.am/old.key", "Encryption: https://ex.am/new.key"],
         none⟩
        { Contact := ["mailto:pgp@ex.am"], Encryption := "https://ex.am/new.key",
          Expires := ⟨64029052800, 0⟩ }).2.2.2 rfl).1⟩

theorem parseFromURL_status {fetch : Fetch} {url : String} {code : Nat} {body : Reader}
    (hf : fetch url = .response code body) (hc : code > 299) :
    parseFromURL fetch url = .error (.statusCodeError code url) := by
  unfold parseFromURL
  rw [hf]
  dsimp only
  rw [if_pos hc]

theorem ParseFromURL_base_ok {fetch : Fetch} {rawURL : String} {u : GoURL} {txt : TXT}
    (hu : urlParse rawURL = some u)
    (h : parseFromURL fetch rawURL = .ok txt) :
    ParseFromURL fetch rawURL = .ok txt := by
  unfold ParseFromURL
  rw [hu]
  dsimp only
  rw [h]

theorem ParseFromURL_nontrivial {fetch : Fetch} {rawURL : String} {u : GoURL}
    {e : ResolveError}
    (hu : urlParse rawURL = some u)
    (h : parseFromURL fetch rawURL = .error e)
    (hp : ¬ (u.path = "/" ∨ u.path = "")) :
    ParseFromURL fetch rawURL = .error (.aggregated [e]) := by
  unfold ParseFromURL
  rw [hu]
  dsimp only
  rw [h]
  dsimp only
  rw [if_neg hp]

theorem ParseFromURL_first_ok {fetch : Fetch} {rawURL : String} {u : GoURL}
    {e : ResolveError} {txt : TXT}
    (hu : urlParse rawURL = some u)
    (h : parseFromURL fetch rawURL = .error e)
    (hp : u.path = "/" ∨ u.path = "")
    (h1 : parseFromURL fetch (TrimSuf u.toStr "/" ++ "/" ++ "security.txt") = .ok txt) :
    ParseFromURL fetch rawURL = .ok txt := by
  unfold ParseFromURL
  rw [hu]
  dsimp only
  rw [h]
  dsimp only
  rw [if_pos hp]
  simp only [tryPaths]
  rw [h1]

theorem ParseFromURL_second_ok {fetch : Fetch} {rawURL : String} {u : GoURL}
    {e e1 : ResolveError} {txt : TXT}
    (hu : urlParse rawURL = some u)
    (h : parseFromURL fetch rawURL = .error e)
    (hp : u.path = "/" ∨ u.path = "")
    (h1 : parseFromURL fetch (TrimSuf u.toStr "/" ++ "/" ++ "security.txt") = .error e1)
    (h2 : parseFromURL fetch (TrimSuf u.toStr "/" ++ "/" ++ ".well-known/security.txt") = .ok txt) :
    ParseFromURL fetch rawURL = .ok txt := by
  unfold ParseFromURL
  rw [hu]
  dsimp only
  rw [h]
  dsimp only
  rw [if_pos hp]
  simp only [tryPaths]
  rw [h1]
  dsimp only
  rw [h2]

theorem ParseFromURL_all_fail {fetch : Fetch} {rawURL : String} {u : GoURL}
    {e e1 e2 : ResolveError}
    (hu : urlParse rawURL = some u)
    (h : parseFromURL fetch rawURL = .error e)
    (hp : u.path = "/" ∨ u.path = "")
    (h1 : parseFromURL fetch (TrimSuf u.toStr "/" ++ "/" ++ "security.txt") = .error e1)
    (h2 : parseFromURL fetch (TrimSuf u.toStr "/" ++ "/" ++ ".well-known/security.txt") = .error e2) :
    ParseFromURL fetch rawURL = .error (.aggregated [e, e1, e2]) := by
  unfold ParseFromURL
  rw [hu]
  dsimp only
  rw [h]
  dsimp only
  rw [if_pos hp]
  simp only [tryPaths]
  rw [h1]
  dsimp only
  rw [h2]
  dsimp only
  rfl

/-- C3: the resolver tries the base location verbatim first and returns
its document immediately on success; only when the parsed path is empty
or exactly slash does it then try, in fixed order, base slash
security.txt followed by base slash .well-known slash security.txt
(trailing slash trimmed before appending), stopping on the first
success; for any other path no fallback candidate is attempted. -/
theorem C3_resolution_order (fetch : Fetch) (rawURL : String) (u : GoURL)
    (hu : urlParse rawURL = some u) :
    (∀ txt, parseFromURL fetch rawURL = .ok txt →
      ParseFromURL fetch rawURL = .ok txt) ∧
    (∀ e, parseFromURL fetch rawURL = .error e →
      (¬ (u.path = "/" ∨ u.path = "") →
        ParseFromURL fetch rawURL = .error (.aggregated [e])) ∧
      ((u.path = "/" ∨ u.path = "") →
        (∀ txt,
          parseFromURL fetch (TrimSuf u.toStr "/" ++ "/" ++ "security.txt") = .ok txt →
          ParseFromURL fetch rawURL = .ok txt) ∧
        (∀ e1,
          parseFromURL fetch (TrimSuf u.toStr "/" ++ "/" ++ "security.txt") = .error e1 →
          (∀ txt,
            parseFromURL fetch
              (TrimSuf u.toStr "/" ++ "/" ++ ".well-known/security.txt") = .ok txt →
            ParseFromURL fetch rawURL = .ok txt) ∧
          (∀ e2,
            parseFromURL fetch
              (TrimSuf u.toStr "/" ++ "/" ++ ".well-known/security.txt") = .error e2 →
            ParseFromURL fetch rawURL = .error (.aggregated [e, e1, e2]))))) := by
  refine ⟨fun txt h => ParseFromURL_base_ok hu h, fun e he => ⟨?_, ?_⟩⟩
  · intro hnp
    exact ParseFromURL_nontrivial hu he hnp
  · intro hp
    refine ⟨fun txt h1 => ParseFromURL_first_ok hu he hp h1, fun e1 h1 => ⟨?_, ?_⟩⟩
    · intro txt h2
      exact ParseFromURL_second_ok hu he hp h1 h2
    · intro e2 h2
      exact ParseFromURL_all_fail hu he hp h1 h2

/-- C3 witness: resolving a root-path URL whose base fetch returns 404
but whose security.txt candidate succeeds yields that document. -/
theorem C3_resolution_order_witness :
    ParseFromURL
      (fun url =>
        if url = "http://ex.org/security.txt" then
          FetchResult.response 200
            ⟨["Contact: mailto:u@ex.org", "Expires: 2031-05-06T07:08:09Z"], none⟩
        else FetchResult.response 404 ⟨[], none⟩)
      "http://ex.org/" =
      .ok { Contact := ["mailto:u@ex.org"], Expires := ⟨64071414489, 0⟩ } :=
  (((C3_resolution_order
      (fun url =>
        if url = "http://ex.org/security.txt" then
          FetchResult.response 200
            ⟨["Contact: mailto:u@ex.org", "Expires: 2031-05-06T07:08:09Z"], none⟩
        else FetchResult.response 404 ⟨[], none⟩)
      "http://ex.org/" ⟨"http", "ex.org", "/"⟩ rfl).2
    (.statusCodeError 404 "http://ex.org/") rfl).2 (Or.inl rfl)).1
    { Contact := ["mailto:u@ex.org"], Expires := ⟨64071414489, 0⟩ } rfl

/-- C4: when every attempt fails with a non-success status the resolver
returns the aggregated error listing each per-attempt status failure,
with its code and location, in attempt order: three failures for an
empty-or-slash base path, exactly one for a non-trivial path. -/
theorem C4_aggregated_failures (fetch : Fetch) (rawURL : String) (u : GoURL)
    (c0 c1 c2 : Nat) (b0 b1 b2 : Reader)
    (hu : urlParse rawURL = some u) :
    ((u.path = "/" ∨ u.path = "") →
      fetch rawURL = .response c0 b0 → c0 > 299 →
      fetch (TrimSuf u.toStr "/" ++ "/" ++ "security.txt") = .response c1 b1 →
      c1 > 299 →
      fetch (TrimSuf u.toStr "/" ++ "/" ++ ".well-known/security.txt") = .response c2 b2 →
      c2 > 299 →
      ParseFromURL fetch rawURL = .error (.aggregated
        [.statusCodeError c0 rawURL,
         .statusCodeError c1 (TrimSuf u.toStr "/" ++ "/" ++ "security.txt"),
         .statusCodeError c2 (TrimSuf u.toStr "/" ++ "/" ++ ".well-known/security.txt")])) ∧
    (¬ (u.path = "/" ∨ u.path = "") →
      fetch rawURL = .response c0 b0 → c0 > 299 →
      ParseFromURL fetch rawURL = .error (.aggregated [.statusCodeError c0 rawURL])) := by
  constructor
  · intro hp hf0 hc0 hf1 hc1 hf2 hc2
    exact ParseFromURL_all_fail hu (parseFromURL_status hf0 hc0) hp
      (parseFromURL_status hf1 hc1) (parseFromURL_status hf2 hc2)
  · intro hnp hf0 hc0
    exact ParseFromURL_nontrivial hu (parseFromURL_status hf0 hc0) hnp

/-- C4 witness: an everything-404 host yields three tagged failures for
a root base, and exactly one for a non-trivial path. -/
theorem C4_aggregated_failures_witness :
    ParseFromURL (fun _ => FetchResult.response 404 ⟨[], none⟩) "https://ex.net" =
      .error (.aggregated
        [.statusCodeError 404 "https://ex.net",
         .statusCodeError 404 "https://ex.net/security.txt",
         .statusCodeError 404 "https://ex.net/.well-known/security.txt"]) ∧
    ParseFromURL (fun _ => FetchResult.response 404 ⟨[], none⟩) "https://ex.net/foo" =
      .error (.aggregated [.statusCodeError 404 "https://ex.net/foo"]) :=
  ⟨(C4_aggregated_failures (fun _ => FetchResult.response 404 ⟨[], none⟩)
      "https://ex.net" ⟨"https", "ex.net", ""⟩ 404 404 404 ⟨[], none⟩ ⟨[], none⟩
      ⟨[], none⟩ rfl).1 (Or.inr rfl) rfl (by decide) rfl (by decide) rfl (by decide),
   (C4_aggregated_failures (fun _ => FetchResult.response 404 ⟨[], none⟩)
      "https://ex.net/foo" ⟨"https", "ex.net", "/foo"⟩ 404 404 404 ⟨[], none⟩
      ⟨[], none⟩ ⟨[], none⟩ rfl).2 (by simp) rfl (by decide)⟩
